import Mathlib

/-!
# Verification of the Aurora audit-log backup pipeline

Shallow embedding of the three Lambda handlers of the
aurora-audit-log-backup-lab repository:

* the DB instance Scanner (`filterAuroraInstances`, `getDBInstances`,
  publishing to SQS),
* the Log File Detector (`isAuditLog`, `getDBLogFiles`, catalog
  insert/update logic),
* the Log File Downloader (`shouldDownload`, `downloadLogFile`,
  `uploadToS3`, `updateLastBackup`, and its stream-record handler).

External services (RDS, S3, DynamoDB, SQS) are modelled by explicit
environment records whose fields give the responses of each call; the
handlers become pure state-transformation functions over those
environments.
-/

namespace AuroraBackup

/-! ## Go strconv.ParseInt (base 10, 64-bit) -/

/-- Numeric value of a decimal digit character, `none` for non-digits. -/
def digitVal (c : Char) : Option Nat :=
  if '0' ≤ c ∧ c ≤ '9' then some (c.toNat - '0'.toNat) else none

/-- Parse a nonempty all-digit character list as a natural number. -/
def parseNatCore (cs : List Char) : Option Nat :=
  match cs with
  | [] => none
  | _ => cs.foldl (fun acc c => acc.bind fun a => (digitVal c).map fun d => a * 10 + d) (some 0)

/-- Model of Go `strconv.ParseInt(s, 10, 64)`: optional sign, at least one
decimal digit, and the value must fit in a signed 64-bit integer.
`none` models the error return. -/
def parseInt64 (s : String) : Option Int :=
  let cs := s.toList
  let signAndDigits : Int × List Char :=
    match cs with
    | '-' :: rest => (-1, rest)
    | '+' :: rest => (1, rest)
    | _ => (1, cs)
  match parseNatCore signAndDigits.2 with
  | none => none
  | some n =>
    let v : Int := signAndDigits.1 * n
    if v < -(2 ^ 63) ∨ 2 ^ 63 - 1 < v then none else some v

/-! ## Shared data model: the catalog (DynamoDB table)

A `LogFileRecord` is the Go struct used by both the Detector and the
Downloader.  `LastBackup` is declared `omitempty`, so the stored DynamoDB
item may lack the attribute; we model a stored item (`CatalogItem`) with
`lastBackup : Option Int` (absent = never backed up), while the Go struct
field is a plain `Int` that reads `0` for an absent attribute. -/

structure LogFileRecord where
  dbInstanceIdentifier : String
  logFileName : String
  size : Int
  lastWritten : Int
  lastBackup : Int
  deriving DecidableEq, Inhabited

/-- Attribute content of a stored catalog item (besides its key). -/
structure CatalogItem where
  size : Int
  lastWritten : Int
  lastBackup : Option Int
  deriving DecidableEq, Inhabited

/-- The catalog, keyed by the composite key (instance id, log file name);
lookups take the first matching entry. -/
abbrev Catalog := List ((String × String) × CatalogItem)

/-- DynamoDB GetItem on the catalog. -/
def catGet (cat : Catalog) (k : String × String) : Option CatalogItem :=
  (cat.find? fun e => e.1 = k).map (·.2)

/-- DynamoDB PutItem / UpdateItem result: the item under key `k` becomes
`item` (first-match lookup makes prepending a key-overwrite). -/
def catSet (cat : Catalog) (k : String × String) (item : CatalogItem) : Catalog :=
  (k, item) :: cat

/-! ## Log File Detector -/

/-- `isAuditLog` from logdetector/main.go.  Go indexes bytes, but the
compared literal "audit" is ASCII, so the byte test `logFileName[0:5] ==
"audit"` coincides with the character-level test used here. -/
def isAuditLog (logFileName : String) : Bool :=
  logFileName == "audit.log" ||
  logFileName == "audit/server_audit.log" ||
  logFileName == "error/mysql-audit.log" ||
  (5 ≤ logFileName.length && logFileName.take 5 == "audit")

/-- One entry of RDS DescribeDBLogFiles (`DescribeDBLogFilesDetails`). -/
structure LogFileEntry where
  logFileName : String
  size : Int
  lastWritten : Int
  deriving DecidableEq, Inhabited

/-- `getLogFileRecord`: GetItem by composite key, unmarshalled into the Go
struct; an absent `LastBackup` attribute reads as `0`. -/
def getLogFileRecord (cat : Catalog) (dbInstanceID logFileName : String) :
    Option LogFileRecord :=
  (catGet cat (dbInstanceID, logFileName)).map fun item =>
    { dbInstanceIdentifier := dbInstanceID
      logFileName := logFileName
      size := item.size
      lastWritten := item.lastWritten
      lastBackup := item.lastBackup.getD 0 }

/-- `createLogFileRecord`: PutItem of the marshalled record.  Because of
`omitempty`, a zero `LastBackup` is not written (attribute absent). -/
def createLogFileRecord (cat : Catalog) (record : LogFileRecord) : Catalog :=
  catSet cat (record.dbInstanceIdentifier, record.logFileName)
    { size := record.size
      lastWritten := record.lastWritten
      lastBackup := if record.lastBackup = 0 then none else some record.lastBackup }

/-- `updateLogFileRecord`: UpdateItem that SETs Size and LastWritten and,
only when `record.lastBackup > 0`, also SETs LastBackup; otherwise the
stored LastBackup attribute is left untouched. -/
def updateLogFileRecord (cat : Catalog) (record : LogFileRecord) : Catalog :=
  let k := (record.dbInstanceIdentifier, record.logFileName)
  let stored := (catGet cat k).bind (·.lastBackup)
  catSet cat k
    { size := record.size
      lastWritten := record.lastWritten
      lastBackup := if record.lastBackup > 0 then some record.lastBackup else stored }

/-- Body of the Detector's per-file loop (Handler lines 68-108): filter by
`isAuditLog`, then insert a new record, update a changed one (carrying the
existing LastBackup forward), or do nothing. -/
def detectorProcessFile (cat : Catalog) (dbInstanceID : String)
    (logFile : LogFileEntry) : Catalog :=
  if ¬ isAuditLog logFile.logFileName then cat
  else
    let record : LogFileRecord :=
      { dbInstanceIdentifier := dbInstanceID
        logFileName := logFile.logFileName
        size := logFile.size
        lastWritten := logFile.lastWritten
        lastBackup := 0 }
    match getLogFileRecord cat dbInstanceID logFile.logFileName with
    | none => createLogFileRecord cat record
    | some existingRecord =>
      if existingRecord.size ≠ record.size ∨ existingRecord.lastWritten ≠ record.lastWritten then
        updateLogFileRecord cat { record with lastBackup := existingRecord.lastBackup }
      else cat

/-- Environment of the Detector: the aggregated log-file listing per
instance id (`none` models a DescribeDBLogFiles failure, which aborts that
instance but not the batch). -/
structure DetEnv where
  logFiles : String → Option (List LogFileEntry)

/-- Processing of one SQS message (one instance id) by the Detector. -/
def detectorProcessInstance (env : DetEnv) (cat : Catalog) (dbInstanceID : String) :
    Catalog :=
  match env.logFiles dbInstanceID with
  | none => cat
  | some files => files.foldl (fun c f => detectorProcessFile c dbInstanceID f) cat

/-- The Detector's Handler: if DYNAMODB_TABLE_NAME is unset (empty), it
returns nil without touching the batch; otherwise it folds over the SQS
messages.  The second component is the returned error (always `none` in
the modelled fragment). -/
def detectorHandler (tableName : String) (env : DetEnv) (cat : Catalog)
    (messages : List String) : Catalog × Option String :=
  if tableName = "" then (cat, none)
  else (messages.foldl (detectorProcessInstance env) cat, none)

/-! ## DB Instance Scanner -/

/-- The fragment of an RDS `DBInstance` the Scanner uses.  The engine is a
`*string` in the SDK, hence `Option`. -/
structure DBInstance where
  dbInstanceIdentifier : String
  engine : Option String
  deriving DecidableEq, Inhabited

/-- `filterAuroraInstances`: keeps the instances whose engine pointer is
non-nil and equals "aurora-mysql" or "aurora", via an append loop. -/
def filterAuroraInstances (instances : List DBInstance) : List DBInstance :=
  instances.foldl
    (fun acc inst =>
      if (match inst.engine with
          | some e => e == "aurora-mysql" || e == "aurora"
          | none => false) then
        acc ++ [inst]
      else acc)
    []

/-- The Scanner Handler's publish loop over the filtered instances:
`sendOk` gives the outcome of each SQS SendMessage; a failed send is
logged and skipped.  Returns the list of message bodies delivered to the
queue, in order. -/
def scannerPublished (sendOk : String → Bool) (instances : List DBInstance) :
    List String :=
  (filterAuroraInstances instances).filterMap fun inst =>
    if sendOk inst.dbInstanceIdentifier then some inst.dbInstanceIdentifier
    else none

/-! ## Paginated listing (Scanner's DescribeDBInstances and Detector's
DescribeDBLogFiles)

Both loops issue a call, append the page's items, stop when the response
marker is nil and otherwise pass the marker to the next call.  The
provider is modelled as the sequence of responses it returns to the
successive calls. -/

/-- One paginated API response: a page of items plus the continuation
marker (`none` models a nil marker). -/
structure Paged (α : Type) where
  items : List α
  marker : Option String
  deriving DecidableEq, Inhabited

/-- The common pagination loop: append the response's items, stop when its
marker is nil, otherwise continue with the next response.  An exhausted
response list yields no further items (a live provider always answers). -/
def collectPaged {α : Type} : List (Paged α) → List α
  | [] => []
  | p :: rest =>
    p.items ++ (match p.marker with
      | none => []
      | some _ => collectPaged rest)

/-- `getDBInstances` of the Scanner, over the provider's response
sequence. -/
def getDBInstances (pages : List (Paged DBInstance)) : List DBInstance :=
  collectPaged pages

/-- `getDBLogFiles` of the Detector, over the provider's response
sequence. -/
def getDBLogFiles (pages : List (Paged LogFileEntry)) : List LogFileEntry :=
  collectPaged pages

/-- Well-formed provider behaviour: every response but the last carries a
continuation marker, and the last does not. -/
def pagedWF {α : Type} : List (Paged α) → Bool
  | [] => false
  | [p] => p.marker == none
  | p :: rest => p.marker.isSome && pagedWF rest

/-! ## Log File Downloader

A DynamoDB stream image, restricted to the attributes the code reads.
All numeric attributes of the catalog are written as DynamoDB numbers;
each `Option String` field holds the attribute's number (or string)
payload, `none` meaning the attribute is absent from the image. -/

structure Image where
  dbInstanceIdentifier : Option String := none
  logFileName : Option String := none
  size : Option String := none
  lastWritten : Option String := none
  lastBackup : Option String := none
  deriving DecidableEq, Inhabited

/-- One DynamoDB stream record of the Downloader's event batch. -/
structure StreamRecord where
  eventName : String
  oldImage : Image
  newImage : Image
  deriving DecidableEq, Inhabited

/-- `shouldDownload` (logdownloader/main.go lines 272-306): true when the
Size payloads differ (both present), or the LastWritten payloads differ
(both present), or the new image has no LastBackup, or LastBackup fails to
parse, or the parsed LastBackup is older than 24 hours before `now`. -/
def shouldDownload (oldImage newImage : Image) (now : Int) : Bool :=
  if (match oldImage.size, newImage.size with
      | some o, some n => o != n
      | _, _ => false) then true
  else if (match oldImage.lastWritten, newImage.lastWritten with
      | some o, some n => o != n
      | _, _ => false) then true
  else
    match newImage.lastBackup with
    | none => true
    | some s =>
      match parseInt64 s with
      | none => true
      | some lastBackupVal => lastBackupVal < now - 24 * 60 * 60

/-- `unmarshalDynamoDBEvent` specialised to `LogFileRecord`: numeric
attributes are parsed with ParseInt (a present but unparsable payload
makes the unmarshal fail, since the value then stays a string and cannot
fill an int64 field); absent attributes read as Go zero values. -/
def unmarshalDynamoDBEvent (image : Image) : Option LogFileRecord :=
  let numField : Option String → Option Int := fun payload =>
    match payload with
    | none => some 0
    | some s => parseInt64 s
  match numField image.size, numField image.lastWritten, numField image.lastBackup with
  | some size, some lastWritten, some lastBackup =>
    some { dbInstanceIdentifier := image.dbInstanceIdentifier.getD ""
           logFileName := image.logFileName.getD ""
           size := size
           lastWritten := lastWritten
           lastBackup := lastBackup }
  | _, _, _ => none

/-! ### Portioned download (`downloadLogFile`) -/

/-- One response of DownloadDBLogFilePortion; every field is a pointer in
the SDK, hence the `Option`s. -/
structure PortionResp where
  logFileData : Option String := none
  additionalDataPending : Option Bool := none
  marker : Option String := none
  deriving DecidableEq, Inhabited

/-- The pagination loop of `downloadLogFile` (lines 342-417), over the
provider's response sequence.  The loop state is the marker sent with the
next request (tracked so the requests themselves are observable).  It
returns `none` on the pagination error (nil or empty marker while more
data is pending) and on an exhausted response list (a live provider
answers every request); otherwise `some (requests, portions)`: the markers
of the issued requests and the nonempty data portions appended to the
buffer, in order. -/
def downloadLoop : List PortionResp → Option String →
    Option (List (Option String) × List String)
  | [], _ => none
  | resp :: rest, marker =>
    let pending := resp.additionalDataPending.getD false
    match resp.logFileData with
    | some data =>
      if data.length = 0 then
        -- empty portion: continue with resp.marker (unchecked) or stop
        if pending then
          (downloadLoop rest resp.marker).map fun r => (marker :: r.1, r.2)
        else some ([marker], [])
      else
        if ¬ pending then some ([marker], [data])
        else
          match resp.marker with
          | none => none
          | some m =>
            if m = "" then none
            else (downloadLoop rest (some m)).map fun r => (marker :: r.1, data :: r.2)
    | none =>
      if ¬ pending then some ([marker], [])
      else
        match resp.marker with
        | none => none
        | some m =>
          if m = "" then none
          else (downloadLoop rest (some m)).map fun r => (marker :: r.1, r.2)

/-- `downloadLogFile`: the portioned download starts at marker "0"; its
result content is the concatenation of the collected portions.  The
expected-size and per-portion-size checks of the source only log warnings
and do not influence the result. -/
def downloadLogFile (resps : List PortionResp) :
    Option (List (Option String) × List String) :=
  downloadLoop resps (some "0")

/-! ### The Downloader's handler -/

/-- Environment of one Downloader invocation: the current unix time, the
outcome of the portioned (SDK) download and of the whole-file (REST)
download per (instance, file), and the success of each S3 PutObject and
DynamoDB UpdateItem call. -/
structure DLEnv where
  now : Int
  sdkDownload : String → String → Option String
  restDownload : String → String → Option String
  s3PutOk : String → Bool
  ddbUpdateOk : String → String → Bool

/-- State touched by the Downloader: the S3 bucket's objects (key to
content, newest first) and the catalog's LastBackup attributes as written
by `updateLastBackup`. -/
structure DLState where
  s3 : List (String × String)
  lastBackupTable : List ((String × String) × Int)
  deriving DecidableEq, Inhabited

/-- S3 GetObject lookup over the modelled bucket. -/
def s3Get (st : DLState) (key : String) : Option String :=
  (st.s3.find? fun e => e.1 = key).map (·.2)

/-- Lookup of the LastBackup value last written for a composite key. -/
def lbGet (st : DLState) (k : String × String) : Option Int :=
  (st.lastBackupTable.find? fun e => e.1 = k).map (·.2)

/-- `uploadToS3`: PutObject under `key`; `none` models the error return,
in which case no object is stored. -/
def uploadToS3 (env : DLEnv) (st : DLState) (key content : String) :
    Option DLState :=
  if env.s3PutOk key then some { st with s3 := (key, content) :: st.s3 }
  else none

/-- `updateLastBackup`: UpdateItem SET LastBackup = now for the composite
key; `none` models the error return. -/
def updateLastBackup (env : DLEnv) (st : DLState) (dbInstanceID logFileName : String) :
    Option DLState :=
  if env.ddbUpdateOk dbInstanceID logFileName then
    some { st with
           lastBackupTable := ((dbInstanceID, logFileName), env.now) :: st.lastBackupTable }
  else none

/-- Body of the Downloader Handler's per-record loop (lines 71-152),
with `s3Dir` the configured key root (env var S3_PREFIX after
defaulting).  Every `continue` of the source returns the state reached at
that point. -/
def processRecord (env : DLEnv) (s3Dir : String) (st : DLState)
    (record : StreamRecord) : DLState :=
  if record.eventName ≠ "INSERT" ∧ record.eventName ≠ "MODIFY" then st
  else
    match unmarshalDynamoDBEvent record.newImage with
    | none => st
    | some logFileRecord =>
      if record.eventName = "MODIFY" ∧
          ¬ shouldDownload record.oldImage record.newImage env.now then st
      else
        match env.sdkDownload logFileRecord.dbInstanceIdentifier logFileRecord.logFileName with
        | none => st
        | some sdkLogContent =>
          let restLogContent :=
            env.restDownload logFileRecord.dbInstanceIdentifier logFileRecord.logFileName
          let sdkS3Key := s3Dir ++ "/" ++ logFileRecord.dbInstanceIdentifier ++ "/" ++
            logFileRecord.logFileName ++ "-sdk"
          match uploadToS3 env st sdkS3Key sdkLogContent with
          | none => st
          | some st1 =>
            let st2 :=
              match restLogContent with
              | none => st1
              | some restContent =>
                let restS3Key := s3Dir ++ "/" ++ logFileRecord.dbInstanceIdentifier ++ "/" ++
                  logFileRecord.logFileName ++ "-rest"
                match uploadToS3 env st1 restS3Key restContent with
                | none => st1
                | some st' => st'
            match updateLastBackup env st2 logFileRecord.dbInstanceIdentifier
                logFileRecord.logFileName with
            | none => st2
            | some st3 => st3

/-- The Downloader's batch loop: records are processed sequentially, each
failure skipping only its own record. -/
def processBatch (env : DLEnv) (s3Dir : String) (st : DLState)
    (records : List StreamRecord) : DLState :=
  records.foldl (processRecord env s3Dir) st

/-- The Downloader's Handler: returns nil immediately when
DYNAMODB_TABLE_NAME or S3_BUCKET_NAME is unset (empty); an unset
S3_PREFIX defaults to "logs".  The second component is the returned
error (always `none` in the modelled fragment). -/
def downloaderHandler (tableName bucketName s3PrefixVar : String) (env : DLEnv)
    (st : DLState) (records : List StreamRecord) : DLState × Option String :=
  if tableName = "" then (st, none)
  else if bucketName = "" then (st, none)
  else
    let s3Dir := if s3PrefixVar = "" then "logs" else s3PrefixVar
    (processBatch env s3Dir st records, none)

/-- The portion kept of a portioned-download response: the data appended
to the buffer (`none` when the response carries no data or an empty
portion). -/
def dataOf (resp : PortionResp) : Option String :=
  match resp.logFileData with
  | some d => if d.length = 0 then none else some d
  | none => none

/-! ## Concrete fixtures for witness and counterexample theorems -/

/-- A MODIFY image whose record is unchanged and freshly backed up. -/
def imgFresh : Image :=
  { dbInstanceIdentifier := some "db1"
    logFileName := some "audit.log"
    size := some "100"
    lastWritten := some "1000"
    lastBackup := some "999" }

/-- An environment whose portioned download always fails. -/
def envNoop : DLEnv :=
  { now := 1000
    sdkDownload := fun _ _ => none
    restDownload := fun _ _ => none
    s3PutOk := fun _ => true
    ddbUpdateOk := fun _ _ => true }

/-- The empty Downloader state. -/
def stEmpty : DLState := { s3 := [], lastBackupTable := [] }

/-- An environment where every call succeeds and the portioned download
returns "AUDITDATA". -/
def envOk : DLEnv :=
  { now := 2000
    sdkDownload := fun _ _ => some "AUDITDATA"
    restDownload := fun _ _ => none
    s3PutOk := fun _ => true
    ddbUpdateOk := fun _ _ => true }

/-- An environment where every call succeeds and the secondary whole-file
download also returns content. -/
def envBoth : DLEnv :=
  { now := 2000
    sdkDownload := fun _ _ => some "AUDITDATA"
    restDownload := fun _ _ => some "RESTDATA"
    s3PutOk := fun _ => true
    ddbUpdateOk := fun _ _ => true }

/-- The spec scenario's MODIFY event for ("db1","audit.log"), old size
100, new size 200. -/
def recGrow : StreamRecord :=
  { eventName := "MODIFY"
    oldImage :=
      { dbInstanceIdentifier := some "db1"
        logFileName := some "audit.log"
        size := some "100"
        lastWritten := some "1000"
        lastBackup := some "500" }
    newImage :=
      { dbInstanceIdentifier := some "db1"
        logFileName := some "audit.log"
        size := some "200"
        lastWritten := some "1500"
        lastBackup := some "500" } }

end AuroraBackup

namespace AuroraBackup

/-! ## Helper lemmas -/

/-- A foldl-with-append loop is `filter` (generalised accumulator). -/
theorem foldl_append_filter {α : Type} (p : α → Bool) :
    ∀ (l acc : List α),
      l.foldl (fun acc x => if p x then acc ++ [x] else acc) acc = acc ++ l.filter p
  | [], acc => by simp
  | x :: t, acc => by
    simp only [List.foldl_cons, List.filter_cons]
    cases hp : p x <;>
      simp [hp, foldl_append_filter p t, List.append_assoc]

/-- `filterMap` of an everywhere-`some` function is `map`. -/
theorem filterMap_some_eq_map {α β : Type} (f : α → β) :
    ∀ l : List α, l.filterMap (fun x => some (f x)) = l.map f
  | [] => rfl
  | x :: t => by simp [List.filterMap_cons, filterMap_some_eq_map f t]

/-- The common pagination loop aggregates every page of a well-formed
provider. -/
theorem collectPaged_join {α : Type} :
    ∀ pages : List (Paged α), pagedWF pages = true →
      collectPaged pages = (pages.map (·.items)).flatten
  | [], h => by simp [pagedWF] at h
  | [p], h => by
    have hm : p.marker = none := by simpa [pagedWF] using h
    simp [collectPaged, hm]
  | p :: q :: rest, h => by
    have h' : p.marker.isSome ∧ pagedWF (q :: rest) = true := by
      simpa [pagedWF] using h
    obtain ⟨m, hm⟩ := Option.isSome_iff_exists.mp h'.1
    have ih := collectPaged_join (q :: rest) h'.2
    show p.items ++ (match p.marker with
      | none => []
      | some _ => collectPaged (q :: rest)) = _
    simp [hm, ih]

/-! ## Claim theorems -/

/-- C3: the audit-log predicate accepts exactly "audit.log",
"audit/server_audit.log", "error/mysql-audit.log", and any name of at
least 5 characters whose first five characters are "audit"; in
particular "audit/server_audit.log" and "auditXYZ" are accepted and
"random.log" is rejected. -/
theorem isAuditLog_spec :
    (∀ name : String, isAuditLog name = true ↔
      name = "audit.log" ∨ name = "audit/server_audit.log" ∨
      name = "error/mysql-audit.log" ∨
      (5 ≤ name.length ∧ name.take 5 = "audit")) ∧
    isAuditLog "audit/server_audit.log" = true ∧
    isAuditLog "auditXYZ" = true ∧
    isAuditLog "random.log" = false := by
  refine ⟨fun name => ?_, by decide, by decide, by decide⟩
  simp [isAuditLog, or_assoc]

/-- C9: a present but unparsable LastBackup payload in the new image
makes `shouldDownload` return true (the conservative re-download). -/
theorem shouldDownload_unparsable (oldImage newImage : Image) (now : Int) (s : String)
    (hlb : newImage.lastBackup = some s) (hparse : parseInt64 s = none) :
    shouldDownload oldImage newImage now = true := by
  unfold shouldDownload
  rw [hlb]
  split
  · rfl
  split
  · rfl
  simp [hparse]

/-- Witness for C9 at a concrete unparsable payload. -/
theorem shouldDownload_unparsable_witness :
    shouldDownload ({} : Image) ({ lastBackup := some "not-a-number" } : Image) 7 = true :=
  shouldDownload_unparsable ({} : Image) ({ lastBackup := some "not-a-number" } : Image)
    7 "not-a-number" rfl (by decide)

/-- C6: the Scanner publishes exactly the identifiers of the instances
whose engine is exactly "aurora-mysql" or "aurora"; with one
aurora-mysql and one postgres instance only the former is published. -/
theorem scannerPublished_spec :
    (∀ instances : List DBInstance,
        scannerPublished (fun _ => true) instances =
          (instances.filter fun inst =>
              inst.engine == some "aurora-mysql" || inst.engine == some "aurora").map
            (·.dbInstanceIdentifier)) ∧
    scannerPublished (fun _ => true)
      [{ dbInstanceIdentifier := "db-a", engine := some "aurora-mysql" },
       { dbInstanceIdentifier := "db-b", engine := some "postgres" }] = ["db-a"] := by
  constructor
  · intro instances
    unfold scannerPublished filterAuroraInstances
    rw [foldl_append_filter]
    rw [List.filter_congr (q := fun inst =>
      inst.engine == some "aurora-mysql" || inst.engine == some "aurora")
      (fun x _ => by cases hx : x.engine <;> simp [hx])]
    have hsome : (fun (inst : DBInstance) =>
        if (fun (_ : String) => true) inst.dbInstanceIdentifier = true
        then some inst.dbInstanceIdentifier else none) =
        fun (inst : DBInstance) => some inst.dbInstanceIdentifier := by
      funext inst; simp
    rw [hsome, filterMap_some_eq_map]
    simp
  · decide

/-- C7: both pagination loops follow the continuation marker to
exhaustion; for a well-formed provider (every response but the last
carries a marker, the last does not) the aggregate is the in-order
concatenation of all pages, before any filtering. -/
theorem pagination_complete :
    (∀ pages : List (Paged DBInstance), pagedWF pages = true →
        getDBInstances pages = (pages.map (·.items)).flatten) ∧
    (∀ pages : List (Paged LogFileEntry), pagedWF pages = true →
        getDBLogFiles pages = (pages.map (·.items)).flatten) :=
  ⟨fun pages h => collectPaged_join pages h, fun pages h => collectPaged_join pages h⟩

/-- Witness for C7: three pages are aggregated in full by both loops. -/
theorem pagination_complete_witness :
    getDBInstances
      [{ items := [{ dbInstanceIdentifier := "a", engine := some "aurora" }], marker := some "m1" },
       { items := [{ dbInstanceIdentifier := "b", engine := none }], marker := some "m2" },
       { items := [{ dbInstanceIdentifier := "c", engine := some "postgres" }], marker := none }] =
      [{ dbInstanceIdentifier := "a", engine := some "aurora" },
       { dbInstanceIdentifier := "b", engine := none },
       { dbInstanceIdentifier := "c", engine := some "postgres" }] ∧
    getDBLogFiles
      [{ items := [{ logFileName := "audit.log", size := 1, lastWritten := 10 }], marker := some "m1" },
       { items := [], marker := some "m2" },
       { items := [{ logFileName := "error.log", size := 2, lastWritten := 20 }], marker := none }] =
      [{ logFileName := "audit.log", size := 1, lastWritten := 10 },
       { logFileName := "error.log", size := 2, lastWritten := 20 }] :=
  ⟨(pagination_complete.1 _ (by decide)).trans (by decide),
   (pagination_complete.2 _ (by decide)).trans (by decide)⟩

/-- Overwriting lookup: setting a key makes it visible. -/
theorem catGet_catSet (cat : Catalog) (k : String × String) (item : CatalogItem) :
    catGet (catSet cat k item) k = some item := by
  simp [catGet, catSet]

/-- C1: for a MODIFY event whose images carry Size and LastWritten and
whose LastBackup (when present) parses, `shouldDownload` is true exactly
when the Size payloads differ, the LastWritten payloads differ, the new
image has no LastBackup, or the parsed LastBackup is older than the
24-hour staleness threshold; when it is false the Downloader's handler
skips the event, leaving the state untouched. -/
theorem shouldDownload_spec (oldImage newImage : Image) (now : Int)
    (env : DLEnv) (s3Dir : String) (st : DLState) (os ns olw nlw : String)
    (hos : oldImage.size = some os) (hns : newImage.size = some ns)
    (holw : oldImage.lastWritten = some olw) (hnlw : newImage.lastWritten = some nlw)
    (hnow : env.now = now)
    (hlb : newImage.lastBackup.all (fun s => (parseInt64 s).isSome) = true) :
    (shouldDownload oldImage newImage now = true ↔
      os ≠ ns ∨ olw ≠ nlw ∨ newImage.lastBackup = none ∨
        ((newImage.lastBackup.bind parseInt64).any fun v =>
          v < now - 24 * 60 * 60) = true) ∧
    (shouldDownload oldImage newImage now = false →
      processRecord env s3Dir st
        { eventName := "MODIFY", oldImage := oldImage, newImage := newImage } = st) := by
  constructor
  · simp only [shouldDownload, hos, hns, holw, hnlw]
    cases hl : newImage.lastBackup with
    | none => simp
    | some s =>
      rw [hl] at hlb
      obtain ⟨v, hv⟩ := Option.isSome_iff_exists.mp (by simpa using hlb)
      by_cases h1 : os = ns <;> by_cases h2 : olw = nlw <;>
        simp [h1, h2, hv]
  · intro hsd
    unfold processRecord
    rw [if_neg (by simp)]
    cases hu : unmarshalDynamoDBEvent newImage with
    | none => rfl
    | some r =>
      simp only
      rw [if_pos (by refine ⟨?_, ?_⟩ <;> simp [hnow, hsd])]

/-- Witness for C1: an unchanged, freshly backed-up MODIFY image is not
re-downloaded and its event leaves the Downloader state untouched. -/
theorem shouldDownload_spec_witness :
    (shouldDownload imgFresh imgFresh 1000 = true ↔
      "100" ≠ "100" ∨ "1000" ≠ "1000" ∨ imgFresh.lastBackup = none ∨
        ((imgFresh.lastBackup.bind parseInt64).any fun v =>
          v < 1000 - 24 * 60 * 60) = true) ∧
    (shouldDownload imgFresh imgFresh 1000 = false →
      processRecord envNoop "logs" stEmpty
        { eventName := "MODIFY", oldImage := imgFresh, newImage := imgFresh } = stEmpty) :=
  shouldDownload_spec imgFresh imgFresh 1000 envNoop "logs" stEmpty
    "100" "100" "1000" "1000" rfl rfl rfl rfl rfl (by decide)

/-- C2: for an audit-log file, the Detector inserts a fresh record with
the observed size and last-written time and no LastBackup when the key is
absent, rewrites size and last-written while carrying the stored
LastBackup forward unchanged when they differ, and performs no catalog
write when both are unchanged. -/
theorem detector_catalog_spec (cat : Catalog) (dbInstanceID : String)
    (logFile : LogFileEntry) (item : CatalogItem)
    (haudit : isAuditLog logFile.logFileName = true) :
    (catGet cat (dbInstanceID, logFile.logFileName) = none →
      catGet (detectorProcessFile cat dbInstanceID logFile)
          (dbInstanceID, logFile.logFileName) =
        some { size := logFile.size, lastWritten := logFile.lastWritten,
               lastBackup := none }) ∧
    (catGet cat (dbInstanceID, logFile.logFileName) = some item →
      item.size ≠ logFile.size ∨ item.lastWritten ≠ logFile.lastWritten →
      catGet (detectorProcessFile cat dbInstanceID logFile)
          (dbInstanceID, logFile.logFileName) =
        some { size := logFile.size, lastWritten := logFile.lastWritten,
               lastBackup := item.lastBackup }) ∧
    (catGet cat (dbInstanceID, logFile.logFileName) = some item →
      item.size = logFile.size → item.lastWritten = logFile.lastWritten →
      detectorProcessFile cat dbInstanceID logFile = cat) := by
  refine ⟨fun hnone => ?_, fun hsome hdiff => ?_, fun hsome h1 h2 => ?_⟩
  · unfold detectorProcessFile
    rw [if_neg (by simp [haudit])]
    simp only [getLogFileRecord, hnone, Option.map_none]
    unfold createLogFileRecord
    rw [if_pos rfl]
    exact catGet_catSet ..
  · unfold detectorProcessFile
    rw [if_neg (by simp [haudit])]
    simp only [getLogFileRecord, hsome, Option.map_some']
    rw [if_pos (by simpa using hdiff)]
    unfold updateLogFileRecord
    simp only [hsome, Option.some_bind]
    have hcarry : (if item.lastBackup.getD 0 > 0 then some (item.lastBackup.getD 0)
        else item.lastBackup) = item.lastBackup := by
      cases hlb : item.lastBackup with
      | none => simp
      | some v => by_cases hv : v > 0 <;> simp [hv]
    rw [hcarry]
    exact catGet_catSet ..
  · unfold detectorProcessFile
    rw [if_neg (by simp [haudit])]
    simp only [getLogFileRecord, hsome, Option.map_some']
    rw [if_neg (by simp [h1, h2])]

/-- Witness for C2, the spec's insert scenario: instance "db1", empty
catalog, observed size 100 and last_written 1000. -/
theorem detector_catalog_spec_witness :
    (catGet [] ("db1", "audit.log") = none →
      catGet (detectorProcessFile [] "db1"
          { logFileName := "audit.log", size := 100, lastWritten := 1000 })
          ("db1", "audit.log") =
        some { size := 100, lastWritten := 1000, lastBackup := none }) ∧
    (catGet [] ("db1", "audit.log") = some { size := 1, lastWritten := 1, lastBackup := none } →
      (1 : Int) ≠ 100 ∨ (1 : Int) ≠ 1000 →
      catGet (detectorProcessFile [] "db1"
          { logFileName := "audit.log", size := 100, lastWritten := 1000 })
          ("db1", "audit.log") =
        some { size := 100, lastWritten := 1000, lastBackup := none }) ∧
    (catGet [] ("db1", "audit.log") = some { size := 1, lastWritten := 1, lastBackup := none } →
      (1 : Int) = 100 → (1 : Int) = 1000 →
      detectorProcessFile [] "db1"
          { logFileName := "audit.log", size := 100, lastWritten := 1000 } = []) :=
  detector_catalog_spec [] "db1"
    { logFileName := "audit.log", size := 100, lastWritten := 1000 }
    { size := 1, lastWritten := 1, lastBackup := none } (by decide)

/-- C10: with the catalog table name unset the Detector returns nil
without processing, and with the table name or bucket name unset the
Downloader returns nil without processing; the batch is acknowledged
and the work dropped. -/
theorem missing_config_drops_batch :
    (∀ (env : DetEnv) (cat : Catalog) (messages : List String),
        detectorHandler "" env cat messages = (cat, none)) ∧
    (∀ (bucketName s3PrefixVar : String) (env : DLEnv) (st : DLState)
        (records : List StreamRecord),
        downloaderHandler "" bucketName s3PrefixVar env st records = (st, none)) ∧
    (∀ (tableName s3PrefixVar : String) (env : DLEnv) (st : DLState)
        (records : List StreamRecord),
        downloaderHandler tableName "" s3PrefixVar env st records = (st, none)) := by
  refine ⟨fun env cat messages => ?_, fun b p env st rs => ?_, fun t p env st rs => ?_⟩
  · simp [detectorHandler]
  · simp [downloaderHandler]
  · unfold downloaderHandler
    by_cases ht : t = "" <;> simp [ht]

/-- Folding string append from an arbitrary accumulator. -/
theorem strFoldl_append : ∀ (l : List String) (a : String),
    l.foldl (fun r s => r ++ s) a = a ++ l.foldl (fun r s => r ++ s) ""
  | [], a => by simp [String.append_empty]
  | s :: t, a => by
    simp only [List.foldl_cons]
    rw [strFoldl_append t (a ++ s), strFoldl_append t ("" ++ s)]
    rw [String.empty_append, String.append_assoc]

/-- `String.join` unfolds on cons. -/
theorem strJoin_cons (s : String) (l : List String) :
    String.join (s :: l) = s ++ String.join l := by
  simp only [String.join, List.foldl_cons]
  rw [strFoldl_append l ("" ++ s), String.empty_append]

/-- A string of length zero is empty. -/
theorem strLength_eq_zero {s : String} (h : s.length = 0) : s = "" := by
  cases s with
  | mk data =>
    cases data with
    | nil => rfl
    | cons c cs => simp [String.length] at h

/-- Dropping nil and empty portions does not change the concatenated
content. -/
theorem join_filterMap_dataOf : ∀ l : List PortionResp,
    String.join (l.filterMap dataOf) =
      String.join (l.map fun r => r.logFileData.getD "")
  | [] => rfl
  | r :: t => by
    cases hd : r.logFileData with
    | none =>
      have hdn : dataOf r = none := by simp [dataOf, hd]
      simp only [List.filterMap_cons, hdn, List.map_cons, hd, Option.getD_none]
      rw [strJoin_cons, String.empty_append, join_filterMap_dataOf t]
    | some d =>
      by_cases hlen : d.length = 0
      · have hde : d = "" := strLength_eq_zero hlen
        subst hde
        have hdn : dataOf r = none := by simp [dataOf, hd]
        simp only [List.filterMap_cons, hdn, List.map_cons, hd, Option.getD_some]
        rw [strJoin_cons, String.empty_append, join_filterMap_dataOf t]
      · have hds : dataOf r = some d := by simp [dataOf, hd, hlen]
        simp only [List.filterMap_cons, hds, List.map_cons, hd, Option.getD_some]
        rw [strJoin_cons, strJoin_cons, join_filterMap_dataOf t]

/-- The portioned-download loop on a well-formed response sequence:
every response before the last signals pending data with a nonempty
marker, the last does not signal pending data; the loop requests the
start marker first and then each returned marker, and collects every
nonempty portion in order. -/
theorem downloadLoop_spec (last : PortionResp)
    (hlast : last.additionalDataPending = none ∨ last.additionalDataPending = some false) :
    ∀ (body : List PortionResp) (mk : Option String),
      (∀ r ∈ body, r.additionalDataPending = some true ∧
        r.marker.any (fun m => m != "") = true) →
      downloadLoop (body ++ [last]) mk =
        some (mk :: body.map (·.marker), (body ++ [last]).filterMap dataOf)
  | [], mk, _ => by
    show downloadLoop (last :: []) mk = _
    rcases hlast with h | h <;>
      · simp only [downloadLoop, h]
        cases hd : last.logFileData with
        | none => simp [dataOf, hd]
        | some d =>
          by_cases hlen : d.length = 0 <;>
            simp [dataOf, hd, hlen]
  | r :: t, mk, hb => by
    have hr := hb r (List.mem_cons_self r t)
    have hbt : ∀ x ∈ t, x.additionalDataPending = some true ∧
        x.marker.any (fun m => m != "") = true :=
      fun x hx => hb x (List.mem_cons_of_mem r hx)
    cases hmk : r.marker with
    | none => rw [hmk] at hr; simp [Option.any] at hr
    | some m =>
      have hmne : ¬ m = "" := by
        have h2 := hr.2
        rw [hmk] at h2
        simpa using h2
      have ih := downloadLoop_spec last hlast t (some m) hbt
      show downloadLoop (r :: (t ++ [last])) mk = _
      simp only [downloadLoop, hr.1, Option.getD_some]
      cases hd : r.logFileData with
      | some d =>
        by_cases hlen : d.length = 0
        · simp [hlen, hmk, ih, dataOf, hd]
        · simp [hlen, hmk, hmne, ih, dataOf, hd]
      | none => simp [hmk, hmne, ih, dataOf, hd]

/-- C8: the portioned download starts at marker "0", follows the returned
markers while the pending-more-data flag is `some true`, stops at the
first response whose flag is absent or false, and succeeds with exactly
the nonempty portions in order; the concatenated content equals the
concatenation of all returned portion payloads.  No size condition
appears among the hypotheses: oversized portions or a short total are
only logged and never fail the download. -/
theorem downloadLogFile_spec (body : List PortionResp) (last : PortionResp)
    (hbody : ∀ r ∈ body, r.additionalDataPending = some true ∧
      r.marker.any (fun m => m != "") = true)
    (hlast : last.additionalDataPending = none ∨ last.additionalDataPending = some false) :
    downloadLogFile (body ++ [last]) =
      some (some "0" :: body.map (·.marker), (body ++ [last]).filterMap dataOf) ∧
    String.join ((body ++ [last]).filterMap dataOf) =
      String.join ((body ++ [last]).map fun r => r.logFileData.getD "") :=
  ⟨downloadLoop_spec last hlast body (some "0") hbody,
   join_filterMap_dataOf (body ++ [last])⟩

/-- Witness for C8: a three-response download (one empty middle portion,
one oversized-free run) collects both data portions. -/
theorem downloadLogFile_spec_witness :
    downloadLogFile
      [{ logFileData := some "line1", additionalDataPending := some true, marker := some "7" },
       { logFileData := some "", additionalDataPending := some true, marker := some "13" },
       { logFileData := some "line2", additionalDataPending := some false, marker := some "19" }] =
      some ([some "0", some "7", some "13"], ["line1", "line2"]) ∧
    String.join ["line1", "line2"] = "line1line2" :=
  have h := downloadLogFile_spec
    [{ logFileData := some "line1", additionalDataPending := some true, marker := some "7" },
     { logFileData := some "", additionalDataPending := some true, marker := some "13" }]
    { logFileData := some "line2", additionalDataPending := some false, marker := some "19" }
    (by decide) (Or.inr rfl)
  ⟨h.1.trans (by decide), by decide⟩

/-- The two upload keys of one record differ. -/
theorem rest_ne_sdk (base : String) : base ++ "-rest" ≠ base ++ "-sdk" := by
  intro h
  have hdata : ("-rest" : String).data = ("-sdk" : String).data :=
    List.append_cancel_left
      (by rw [← String.data_append, ← String.data_append, h])
  exact absurd hdata (by decide)

/-- A freshly uploaded object is found under its key, whatever the
LastBackup table holds. -/
theorem s3Get_upd_self (s3tail : List (String × String))
    (tbl : List ((String × String) × Int)) (key c : String) :
    s3Get { s3 := (key, c) :: s3tail, lastBackupTable := tbl } key = some c := by
  simp [s3Get]

/-- Uploading under a different key does not shadow a lookup. -/
theorem s3Get_upd_ne (s3tail : List (String × String))
    (tbl : List ((String × String) × Int)) (key' c key : String) (h : key' ≠ key) :
    s3Get { s3 := (key', c) :: s3tail, lastBackupTable := tbl } key =
      s3Get { s3 := s3tail, lastBackupTable := tbl } key := by
  simp [s3Get, List.find?_cons, h]

/-- LastBackup lookups agree on states with equal tables. -/
theorem lbGet_table_congr {st1 st2 : DLState}
    (h : st1.lastBackupTable = st2.lastBackupTable) (k : String × String) :
    lbGet st1 k = lbGet st2 k := by
  simp [lbGet, h]

/-- C4 counterexample: after the Downloader processes the spec scenario's
MODIFY event for ("db1","audit.log") with old size 100 and new size 200,
the event was fully processed (the content sits under
"prefix/db1/audit.log-sdk" and LastBackup was advanced), yet no object
exists under the claimed key "prefix/db1/audit.log". -/
theorem downloader_key_counterexample :
    s3Get (processRecord envOk "prefix" stEmpty recGrow) "prefix/db1/audit.log" = none ∧
    s3Get (processRecord envOk "prefix" stEmpty recGrow) "prefix/db1/audit.log-sdk" =
      some "AUDITDATA" ∧
    lbGet (processRecord envOk "prefix" stEmpty recGrow) ("db1", "audit.log") =
      some 2000 := by
  decide

/-- C4 amended: every processed change event (an INSERT, or a MODIFY
whose should-download decision is true) uploads the portioned-download
content under the deterministic key s3Dir/instance/logFileName-sdk, and,
when the secondary whole-file download succeeds and its upload succeeds,
that content under s3Dir/instance/logFileName-rest; the spec scenario's
object therefore exists at "prefix/db1/audit.log-sdk", not at
"prefix/db1/audit.log". -/
theorem downloader_sdk_key (env : DLEnv) (s3Dir : String) (st : DLState)
    (record : StreamRecord) (logFileRecord : LogFileRecord)
    (content restContent : String)
    (hev : record.eventName = "INSERT" ∨ (record.eventName = "MODIFY" ∧
      shouldDownload record.oldImage record.newImage env.now = true))
    (hun : unmarshalDynamoDBEvent record.newImage = some logFileRecord)
    (hdl : env.sdkDownload logFileRecord.dbInstanceIdentifier
      logFileRecord.logFileName = some content)
    (hput : env.s3PutOk (s3Dir ++ "/" ++ logFileRecord.dbInstanceIdentifier ++ "/" ++
      logFileRecord.logFileName ++ "-sdk") = true) :
    s3Get (processRecord env s3Dir st record)
      (s3Dir ++ "/" ++ logFileRecord.dbInstanceIdentifier ++ "/" ++
        logFileRecord.logFileName ++ "-sdk") = some content ∧
    (env.restDownload logFileRecord.dbInstanceIdentifier
        logFileRecord.logFileName = some restContent →
      env.s3PutOk (s3Dir ++ "/" ++ logFileRecord.dbInstanceIdentifier ++ "/" ++
        logFileRecord.logFileName ++ "-rest") = true →
      s3Get (processRecord env s3Dir st record)
        (s3Dir ++ "/" ++ logFileRecord.dbInstanceIdentifier ++ "/" ++
          logFileRecord.logFileName ++ "-rest") = some restContent) := by
  have hst1 : uploadToS3 env st
      (s3Dir ++ "/" ++ logFileRecord.dbInstanceIdentifier ++ "/" ++
        logFileRecord.logFileName ++ "-sdk") content =
      some { st with s3 := (s3Dir ++ "/" ++ logFileRecord.dbInstanceIdentifier ++ "/" ++
        logFileRecord.logFileName ++ "-sdk", content) :: st.s3 } := by
    simp [uploadToS3, hput]
  unfold processRecord
  rw [if_neg (by rcases hev with h | ⟨h, _⟩ <;> rw [h] <;> simp)]
  simp only [hun]
  rw [if_neg (by
    rcases hev with h | ⟨h, hs⟩
    · rw [h]; simp
    · rw [h]; simp [hs])]
  simp only [hdl, hst1]
  cases hrest : env.restDownload logFileRecord.dbInstanceIdentifier
      logFileRecord.logFileName with
  | none =>
    refine ⟨?_, fun hrc => absurd hrc (by simp)⟩
    simp only
    unfold updateLastBackup
    by_cases hddb : env.ddbUpdateOk logFileRecord.dbInstanceIdentifier
        logFileRecord.logFileName = true
    · simp only [hddb, if_true]
      exact s3Get_upd_self ..
    · rw [Bool.not_eq_true] at hddb
      simp only [hddb]
      rw [if_neg (by simp)]
      exact s3Get_upd_self ..
  | some rc =>
    by_cases hrput : env.s3PutOk (s3Dir ++ "/" ++ logFileRecord.dbInstanceIdentifier ++
        "/" ++ logFileRecord.logFileName ++ "-rest") = true
    · have hst2 : uploadToS3 env
          { st with s3 := (s3Dir ++ "/" ++ logFileRecord.dbInstanceIdentifier ++ "/" ++
            logFileRecord.logFileName ++ "-sdk", content) :: st.s3 }
          (s3Dir ++ "/" ++ logFileRecord.dbInstanceIdentifier ++ "/" ++
            logFileRecord.logFileName ++ "-rest") rc =
          some { st with s3 :=
            (s3Dir ++ "/" ++ logFileRecord.dbInstanceIdentifier ++ "/" ++
              logFileRecord.logFileName ++ "-rest", rc) ::
            (s3Dir ++ "/" ++ logFileRecord.dbInstanceIdentifier ++ "/" ++
              logFileRecord.logFileName ++ "-sdk", content) :: st.s3 } := by
        simp [uploadToS3, hrput]
      simp only [hst2]
      unfold updateLastBackup
      by_cases hddb : env.ddbUpdateOk logFileRecord.dbInstanceIdentifier
          logFileRecord.logFileName = true
      · simp only [hddb, if_true]
        constructor
        · rw [s3Get_upd_ne _ _ _ _ _ (rest_ne_sdk _), s3Get_upd_self]
        · intro hrc _
          obtain rfl : rc = restContent := Option.some.inj hrc
          exact s3Get_upd_self ..
      · rw [Bool.not_eq_true] at hddb
        simp only [hddb]
        rw [if_neg (by simp)]
        constructor
        · rw [s3Get_upd_ne _ _ _ _ _ (rest_ne_sdk _), s3Get_upd_self]
        · intro hrc _
          obtain rfl : rc = restContent := Option.some.inj hrc
          exact s3Get_upd_self ..
    · have hst2 : uploadToS3 env
          { st with s3 := (s3Dir ++ "/" ++ logFileRecord.dbInstanceIdentifier ++ "/" ++
            logFileRecord.logFileName ++ "-sdk", content) :: st.s3 }
          (s3Dir ++ "/" ++ logFileRecord.dbInstanceIdentifier ++ "/" ++
            logFileRecord.logFileName ++ "-rest") rc = none := by
        rw [Bool.not_eq_true] at hrput
        simp [uploadToS3, hrput]
      simp only [hst2]
      refine ⟨?_, fun _ hp => absurd hp hrput⟩
      unfold updateLastBackup
      by_cases hddb : env.ddbUpdateOk logFileRecord.dbInstanceIdentifier
          logFileRecord.logFileName = true
      · simp only [hddb, if_true]
        exact s3Get_upd_self ..
      · rw [Bool.not_eq_true] at hddb
        simp only [hddb]
        rw [if_neg (by simp)]
        exact s3Get_upd_self ..

/-- LastBackup lookups after the final UpdateItem step: if the lookup
changed, the key is the record's key and now holds the current time. -/
theorem lastBackup_advance (env : DLEnv) (st stMid : DLState)
    (dbid nm : String) (k : String × String)
    (hne : lbGet (match updateLastBackup env stMid dbid nm with
                  | none => stMid
                  | some st3 => st3) k ≠ lbGet st k)
    (htbl : stMid.lastBackupTable = st.lastBackupTable) :
    k = (dbid, nm) ∧
    lbGet (match updateLastBackup env stMid dbid nm with
           | none => stMid
           | some st3 => st3) k = some env.now := by
  by_cases hddb : env.ddbUpdateOk dbid nm = true
  · have hu : updateLastBackup env stMid dbid nm =
        some { stMid with
               lastBackupTable := ((dbid, nm), env.now) :: stMid.lastBackupTable } := by
      simp [updateLastBackup, hddb]
    simp only [hu] at hne ⊢
    by_cases hk : k = (dbid, nm)
    · subst hk
      exact ⟨rfl, by simp [lbGet]⟩
    · exfalso
      apply hne
      have hstep : lbGet { stMid with
          lastBackupTable := ((dbid, nm), env.now) :: stMid.lastBackupTable } k =
          lbGet stMid k := by
        have hkk : ¬ (dbid, nm) = k := fun he => hk he.symm
        simp [lbGet, List.find?_cons, hkk]
      rw [hstep]
      exact lbGet_table_congr htbl k
  · rw [Bool.not_eq_true] at hddb
    have hu : updateLastBackup env stMid dbid nm = none := by
      simp [updateLastBackup, hddb]
    simp only [hu] at hne
    exact absurd (lbGet_table_congr htbl k) hne

/-- C5: per change event, a failed portioned download or a failed primary
upload leaves the whole Downloader state untouched (the event is skipped);
the LastBackup entry of a key changes only when the download and the
primary upload succeeded, and then it is set to the current time; the
batch always continues with the remaining records. -/
theorem downloader_failure_semantics (env : DLEnv) (s3Dir : String) (st : DLState)
    (record : StreamRecord) (logFileRecord : LogFileRecord) (k : String × String)
    (rest : List StreamRecord)
    (hun : unmarshalDynamoDBEvent record.newImage = some logFileRecord) :
    (env.sdkDownload logFileRecord.dbInstanceIdentifier logFileRecord.logFileName = none →
      processRecord env s3Dir st record = st) ∧
    (env.s3PutOk (s3Dir ++ "/" ++ logFileRecord.dbInstanceIdentifier ++ "/" ++
        logFileRecord.logFileName ++ "-sdk") = false →
      processRecord env s3Dir st record = st) ∧
    (lbGet (processRecord env s3Dir st record) k ≠ lbGet st k →
      k = (logFileRecord.dbInstanceIdentifier, logFileRecord.logFileName) ∧
      (env.sdkDownload logFileRecord.dbInstanceIdentifier
        logFileRecord.logFileName).isSome = true ∧
      env.s3PutOk (s3Dir ++ "/" ++ logFileRecord.dbInstanceIdentifier ++ "/" ++
        logFileRecord.logFileName ++ "-sdk") = true ∧
      lbGet (processRecord env s3Dir st record) k = some env.now) ∧
    (processBatch env s3Dir st (record :: rest) =
      processBatch env s3Dir (processRecord env s3Dir st record) rest) := by
  refine ⟨?_, ?_, ?_, rfl⟩
  · intro hdl
    unfold processRecord
    split
    · rfl
    · simp only [hun]
      split
      · rfl
      · simp [hdl]
  · intro hput
    unfold processRecord
    split
    · rfl
    · simp only [hun]
      split
      · rfl
      · cases hdl : env.sdkDownload logFileRecord.dbInstanceIdentifier
            logFileRecord.logFileName with
        | none => simp [hdl]
        | some c => simp [hdl, uploadToS3, hput]
  · by_cases hskip : record.eventName ≠ "INSERT" ∧ record.eventName ≠ "MODIFY"
    · intro hne
      rw [show processRecord env s3Dir st record = st from by
        unfold processRecord; rw [if_pos hskip]] at hne
      exact absurd rfl hne
    by_cases hmod : record.eventName = "MODIFY" ∧
        ¬ shouldDownload record.oldImage record.newImage env.now = true
    · intro hne
      rw [show processRecord env s3Dir st record = st from by
        unfold processRecord; rw [if_neg hskip]; simp only [hun]; rw [if_pos hmod]] at hne
      exact absurd rfl hne
    cases hdl : env.sdkDownload logFileRecord.dbInstanceIdentifier
        logFileRecord.logFileName with
    | none =>
      intro hne
      rw [show processRecord env s3Dir st record = st from by
        unfold processRecord; rw [if_neg hskip]; simp only [hun]; rw [if_neg hmod];
        simp [hdl]] at hne
      exact absurd rfl hne
    | some c =>
      by_cases hput : env.s3PutOk (s3Dir ++ "/" ++ logFileRecord.dbInstanceIdentifier ++
          "/" ++ logFileRecord.logFileName ++ "-sdk") = true
      case neg =>
        intro hne
        rw [Bool.not_eq_true] at hput
        rw [show processRecord env s3Dir st record = st from by
          unfold processRecord; rw [if_neg hskip]; simp only [hun]; rw [if_neg hmod];
          simp [hdl, uploadToS3, hput]] at hne
        exact absurd rfl hne
      case pos =>
        have hst1 : uploadToS3 env st
            (s3Dir ++ "/" ++ logFileRecord.dbInstanceIdentifier ++ "/" ++
              logFileRecord.logFileName ++ "-sdk") c =
            some { st with s3 := (s3Dir ++ "/" ++ logFileRecord.dbInstanceIdentifier ++
              "/" ++ logFileRecord.logFileName ++ "-sdk", c) :: st.s3 } := by
          simp [uploadToS3, hput]
        cases hrest : env.restDownload logFileRecord.dbInstanceIdentifier
            logFileRecord.logFileName with
        | none =>
          have hpr : processRecord env s3Dir st record =
              (match updateLastBackup env
                  { st with s3 := (s3Dir ++ "/" ++ logFileRecord.dbInstanceIdentifier ++
                    "/" ++ logFileRecord.logFileName ++ "-sdk", c) :: st.s3 }
                  logFileRecord.dbInstanceIdentifier logFileRecord.logFileName with
               | none => { st with s3 := (s3Dir ++ "/" ++
                   logFileRecord.dbInstanceIdentifier ++ "/" ++
                   logFileRecord.logFileName ++ "-sdk", c) :: st.s3 }
               | some st3 => st3) := by
            unfold processRecord
            rw [if_neg hskip]
            simp only [hun]
            rw [if_neg hmod]
            simp only [hdl, hst1, hrest]
          intro hne
          rw [hpr] at hne
          obtain ⟨hk, hval⟩ := lastBackup_advance env st _ _ _ k hne rfl
          exact ⟨hk, rfl, hput, by rw [hpr]; exact hval⟩
        | some restContent =>
          by_cases hrput : env.s3PutOk (s3Dir ++ "/" ++
              logFileRecord.dbInstanceIdentifier ++ "/" ++
              logFileRecord.logFileName ++ "-rest") = true
          · have hst2 : uploadToS3 env
                { st with s3 := (s3Dir ++ "/" ++ logFileRecord.dbInstanceIdentifier ++
                  "/" ++ logFileRecord.logFileName ++ "-sdk", c) :: st.s3 }
                (s3Dir ++ "/" ++ logFileRecord.dbInstanceIdentifier ++ "/" ++
                  logFileRecord.logFileName ++ "-rest") restContent =
                some { st with s3 :=
                  (s3Dir ++ "/" ++ logFileRecord.dbInstanceIdentifier ++ "/" ++
                    logFileRecord.logFileName ++ "-rest", restContent) ::
                  (s3Dir ++ "/" ++ logFileRecord.dbInstanceIdentifier ++ "/" ++
                    logFileRecord.logFileName ++ "-sdk", c) :: st.s3 } := by
              simp [uploadToS3, hrput]
            have hpr : processRecord env s3Dir st record =
                (match updateLastBackup env
                    { st with s3 :=
                      (s3Dir ++ "/" ++ logFileRecord.dbInstanceIdentifier ++ "/" ++
                        logFileRecord.logFileName ++ "-rest", restContent) ::
                      (s3Dir ++ "/" ++ logFileRecord.dbInstanceIdentifier ++ "/" ++
                        logFileRecord.logFileName ++ "-sdk", c) :: st.s3 }
                    logFileRecord.dbInstanceIdentifier logFileRecord.logFileName with
                 | none => { st with s3 :=
                     (s3Dir ++ "/" ++ logFileRecord.dbInstanceIdentifier ++ "/" ++
                       logFileRecord.logFileName ++ "-rest", restContent) ::
                     (s3Dir ++ "/" ++ logFileRecord.dbInstanceIdentifier ++ "/" ++
                       logFileRecord.logFileName ++ "-sdk", c) :: st.s3 }
                 | some st3 => st3) := by
              unfold processRecord
              rw [if_neg hskip]
              simp only [hun]
              rw [if_neg hmod]
              simp only [hdl, hst1, hrest, hst2]
            intro hne
            rw [hpr] at hne
            obtain ⟨hk, hval⟩ := lastBackup_advance env st _ _ _ k hne rfl
            exact ⟨hk, rfl, hput, by rw [hpr]; exact hval⟩
          · rw [Bool.not_eq_true] at hrput
            have hst2 : uploadToS3 env
                { st with s3 := (s3Dir ++ "/" ++ logFileRecord.dbInstanceIdentifier ++
                  "/" ++ logFileRecord.logFileName ++ "-sdk", c) :: st.s3 }
                (s3Dir ++ "/" ++ logFileRecord.dbInstanceIdentifier ++ "/" ++
                  logFileRecord.logFileName ++ "-rest") restContent = none := by
              simp [uploadToS3, hrput]
            have hpr : processRecord env s3Dir st record =
                (match updateLastBackup env
                    { st with s3 := (s3Dir ++ "/" ++
                      logFileRecord.dbInstanceIdentifier ++ "/" ++
                      logFileRecord.logFileName ++ "-sdk", c) :: st.s3 }
                    logFileRecord.dbInstanceIdentifier logFileRecord.logFileName with
                 | none => { st with s3 := (s3Dir ++ "/" ++
                     logFileRecord.dbInstanceIdentifier ++ "/" ++
                     logFileRecord.logFileName ++ "-sdk", c) :: st.s3 }
                 | some st3 => st3) := by
              unfold processRecord
              rw [if_neg hskip]
              simp only [hun]
              rw [if_neg hmod]
              simp only [hdl, hst1, hrest, hst2]
            intro hne
            rw [hpr] at hne
            obtain ⟨hk, hval⟩ := lastBackup_advance env st _ _ _ k hne rfl
            exact ⟨hk, rfl, hput, by rw [hpr]; exact hval⟩

/-- Witness for C5: with a failing portioned download the spec scenario's
event is skipped and nothing changes. -/
theorem downloader_failure_semantics_witness :
    (envNoop.sdkDownload "db1" "audit.log" = none →
      processRecord envNoop "logs" stEmpty recGrow = stEmpty) ∧
    (envNoop.s3PutOk ("logs" ++ "/" ++ "db1" ++ "/" ++ "audit.log" ++ "-sdk") = false →
      processRecord envNoop "logs" stEmpty recGrow = stEmpty) ∧
    (lbGet (processRecord envNoop "logs" stEmpty recGrow) ("db1", "audit.log") ≠
        lbGet stEmpty ("db1", "audit.log") →
      ("db1", "audit.log") = ("db1", "audit.log") ∧
      (envNoop.sdkDownload "db1" "audit.log").isSome = true ∧
      envNoop.s3PutOk ("logs" ++ "/" ++ "db1" ++ "/" ++ "audit.log" ++ "-sdk") = true ∧
      lbGet (processRecord envNoop "logs" stEmpty recGrow) ("db1", "audit.log") =
        some envNoop.now) ∧
    (processBatch envNoop "logs" stEmpty [recGrow] =
      processBatch envNoop "logs" (processRecord envNoop "logs" stEmpty recGrow) []) :=
  downloader_failure_semantics envNoop "logs" stEmpty recGrow
    { dbInstanceIdentifier := "db1", logFileName := "audit.log",
      size := 200, lastWritten := 1500, lastBackup := 500 }
    ("db1", "audit.log") [] (by decide)

/-- Witness for C4 (amended) at the spec scenario, with both download
paths succeeding. -/
theorem downloader_sdk_key_witness :
    s3Get (processRecord envBoth "prefix" stEmpty recGrow)
      ("prefix" ++ "/" ++ "db1" ++ "/" ++ "audit.log" ++ "-sdk") = some "AUDITDATA" ∧
    (envBoth.restDownload "db1" "audit.log" = some "RESTDATA" →
      envBoth.s3PutOk ("prefix" ++ "/" ++ "db1" ++ "/" ++ "audit.log" ++ "-rest") = true →
      s3Get (processRecord envBoth "prefix" stEmpty recGrow)
        ("prefix" ++ "/" ++ "db1" ++ "/" ++ "audit.log" ++ "-rest") = some "RESTDATA") :=
  downloader_sdk_key envBoth "prefix" stEmpty recGrow
    { dbInstanceIdentifier := "db1", logFileName := "audit.log",
      size := 200, lastWritten := 1500, lastBackup := 500 }
    "AUDITDATA" "RESTDATA" (Or.inr ⟨rfl, by decide⟩) (by decide) rfl rfl

end AuroraBackup
